import Mathlib

/-!
Verification of the llama.cpp OpenAI-compatible reverse proxy
(`app/main.py`, `app/rate_limit.py`, `app/routing.py`, `app/auth.py`,
`app/metrics.py`).  Python dictionaries are modelled as association
lists, `bytes` as `List Nat`, monotonic-clock instants as rationals,
and the `httpx` transport as an explicit per-attempt outcome function.
-/

namespace LlamaProxy

/-! ## Generic helpers: association lists and Python-style strings -/

/-- Lookup in an association list; models Python `dict.get`. -/
def findVal {α β : Type} [DecidableEq α] : List (α × β) → α → Option β
  | [], _ => none
  | (k', v) :: rest, k => if k' = k then some v else findVal rest k

/-- Insert-or-overwrite in an association list; models Python `dict[k] = v`
(an existing key keeps its position, a new key is appended, matching
insertion-ordered dictionaries). -/
def setVal {α β : Type} [DecidableEq α] : List (α × β) → α → β → List (α × β)
  | [], k, v => [(k, v)]
  | (k', v') :: rest, k, v =>
      if k' = k then (k, v) :: rest else (k', v') :: setVal rest k v

/-- Add `x` to the entry at `key`, creating it with value `x` when absent;
models `defaultdict` with `d[key] += x` (the default of `int`/`float` is `0`,
so a fresh entry holds `0 + x = x`). -/
def bump {α β : Type} [DecidableEq α] [Add β] : List (α × β) → α → β → List (α × β)
  | [], k, x => [(k, x)]
  | (k', v') :: rest, k, x =>
      if k' = k then (k', v' + x) :: rest else (k', v') :: bump rest k x

/-- Python `str.strip()`: remove leading and trailing whitespace. -/
def pyStrip (s : String) : String :=
  String.mk (((s.data.dropWhile Char.isWhitespace).reverse.dropWhile Char.isWhitespace).reverse)

/-- Python `str.startswith(pre)`. -/
def strStartsWith (s pre : String) : Bool := pre.data.isPrefixOf s.data

/-- Drop the first `n` characters of a string, as Python `s[n:]`. -/
def strDrop (s : String) (n : Nat) : String := String.mk (s.data.drop n)

/-- Code-point lexicographic `≤` on character lists, as Python string
comparison. -/
def lexLe : List Char → List Char → Bool
  | [], _ => true
  | _ :: _, [] => false
  | a :: as, b :: bs =>
      if a.toNat < b.toNat then true
      else if b.toNat < a.toNat then false
      else lexLe as bs

/-- Python `≤` on strings. -/
def strLeB (a b : String) : Bool := lexLe a.data b.data

/-- Lexicographic combination of two comparators, as Python tuple
comparison restricted to the case where ties on the first component are
broken by the second. -/
def lexCombine {α β : Type} [DecidableEq α] (le1 : α → α → Bool) (le2 : β → β → Bool)
    (a b : α × β) : Bool :=
  if a.1 = b.1 then le2 a.2 b.2 else le1 a.1 b.1

/-- Insert into a sorted list, keeping it sorted w.r.t. `le`. -/
def insertLe {α : Type} (le : α → α → Bool) (x : α) : List α → List α
  | [] => [x]
  | y :: ys => if le x y then x :: y :: ys else y :: insertLe le x ys

/-- Insertion sort; models Python `sorted`. -/
def sortLe {α : Type} (le : α → α → Bool) : List α → List α
  | [] => []
  | x :: xs => insertLe le x (sortLe le xs)

theorem mem_insertLe {α : Type} (le : α → α → Bool) (x : α) :
    ∀ (l : List α) (z : α), z ∈ insertLe le x l ↔ z = x ∨ z ∈ l := by
  intro l
  induction l with
  | nil => intro z; simp [insertLe]
  | cons y ys ih =>
    intro z
    simp only [insertLe]
    split
    · simp [List.mem_cons]
    · simp only [List.mem_cons, ih z]
      tauto

theorem pairwise_insertLe {α : Type} (le : α → α → Bool)
    (htotal : ∀ a b, le a b = true ∨ le b a = true)
    (htrans : ∀ a b c, le a b = true → le b c = true → le a c = true)
    (x : α) :
    ∀ (l : List α), l.Pairwise (fun a b => le a b = true) →
      (insertLe le x l).Pairwise (fun a b => le a b = true) := by
  intro l
  induction l with
  | nil => intro _; simp [insertLe]
  | cons y ys ih =>
    intro hp
    rw [List.pairwise_cons] at hp
    obtain ⟨hy, hys⟩ := hp
    simp only [insertLe]
    split
    · rename_i hxy
      rw [List.pairwise_cons]
      constructor
      · intro z hz
        rcases List.mem_cons.mp hz with h | h
        · subst h; exact hxy
        · exact htrans x y z hxy (hy z h)
      · rw [List.pairwise_cons]; exact ⟨hy, hys⟩
    · rename_i hxy
      have hyx : le y x = true := by
        rcases htotal x y with h | h
        · exact absurd h hxy
        · exact h
      rw [List.pairwise_cons]
      constructor
      · intro z hz
        rcases (mem_insertLe le x ys z).mp hz with h | h
        · subst h; exact hyx
        · exact hy z h
      · exact ih hys

theorem pairwise_sortLe {α : Type} (le : α → α → Bool)
    (htotal : ∀ a b, le a b = true ∨ le b a = true)
    (htrans : ∀ a b c, le a b = true → le b c = true → le a c = true) :
    ∀ (l : List α), (sortLe le l).Pairwise (fun a b => le a b = true) := by
  intro l
  induction l with
  | nil => simp [sortLe]
  | cons x xs ih => exact pairwise_insertLe le htotal htrans x _ ih

theorem lexLe_total : ∀ (a b : List Char), lexLe a b = true ∨ lexLe b a = true := by
  intro a
  induction a with
  | nil => intro b; left; rfl
  | cons x xs ih =>
    intro b
    cases b with
    | nil => right; rfl
    | cons y ys =>
      simp only [lexLe]
      rcases Nat.lt_trichotomy x.toNat y.toNat with h | h | h
      · left; simp [h]
      · have h2 : ¬ x.toNat < y.toNat := by omega
        have h3 : ¬ y.toNat < x.toNat := by omega
        simp only [if_neg h2, if_neg h3]
        exact ih ys
      · right; simp [h]

theorem lexLe_trans : ∀ (a b c : List Char),
    lexLe a b = true → lexLe b c = true → lexLe a c = true := by
  intro a
  induction a with
  | nil => intro b c _ _; rfl
  | cons x xs ih =>
    intro b c hab hbc
    cases b with
    | nil => simp [lexLe] at hab
    | cons y ys =>
      cases c with
      | nil => simp [lexLe] at hbc
      | cons z zs =>
        simp only [lexLe] at hab hbc ⊢
        by_cases hxy : x.toNat < y.toNat
        · by_cases hyz : y.toNat < z.toNat
          · have : x.toNat < z.toNat := by omega
            simp [this]
          · simp only [if_neg hyz] at hbc
            by_cases hzy : z.toNat < y.toNat
            · simp [hzy] at hbc
            · have : x.toNat < z.toNat := by omega
              simp [this]
        · simp only [if_neg hxy] at hab
          by_cases hyx : y.toNat < x.toNat
          · simp [hyx] at hab
          · simp only [if_neg hyx] at hab
            have hxyeq : x.toNat = y.toNat := by omega
            by_cases hyz : y.toNat < z.toNat
            · have : x.toNat < z.toNat := by omega
              simp [this]
            · simp only [if_neg hyz] at hbc
              by_cases hzy : z.toNat < y.toNat
              · simp [hzy] at hbc
              · simp only [if_neg hzy] at hbc
                have h2 : ¬ x.toNat < z.toNat := by omega
                have h3 : ¬ z.toNat < x.toNat := by omega
                simp only [if_neg h2, if_neg h3]
                exact ih ys zs hab hbc

theorem lexLe_antisymm : ∀ (a b : List Char),
    lexLe a b = true → lexLe b a = true → a = b := by
  intro a
  induction a with
  | nil =>
    intro b _ hba
    cases b with
    | nil => rfl
    | cons y ys => simp [lexLe] at hba
  | cons x xs ih =>
    intro b hab hba
    cases b with
    | nil => simp [lexLe] at hab
    | cons y ys =>
      simp only [lexLe] at hab hba
      by_cases hxy : x.toNat < y.toNat
      · have : ¬ y.toNat < x.toNat := by omega
        simp [hxy, this] at hba
      · simp only [if_neg hxy] at hab
        by_cases hyx : y.toNat < x.toNat
        · simp [hyx] at hab
        · simp only [if_neg hyx] at hab
          simp only [if_neg hyx, if_neg hxy] at hba
          have hnat : x.toNat = y.toNat := by omega
          have hchar : x = y := Char.ext (UInt32.ext hnat)
          rw [hchar, ih ys hab hba]

theorem strLeB_total : ∀ a b : String, strLeB a b = true ∨ strLeB b a = true := by
  intro a b; exact lexLe_total a.data b.data

theorem strLeB_trans : ∀ a b c : String,
    strLeB a b = true → strLeB b c = true → strLeB a c = true := by
  intro a b c; exact lexLe_trans a.data b.data c.data

theorem strLeB_antisymm : ∀ a b : String,
    strLeB a b = true → strLeB b a = true → a = b := by
  intro a b hab hba
  cases a with
  | mk da =>
    cases b with
    | mk db =>
      exact congrArg String.mk (lexLe_antisymm da db hab hba)

theorem lexCombine_total {α β : Type} [DecidableEq α]
    (le1 : α → α → Bool) (le2 : β → β → Bool)
    (h1 : ∀ a b, le1 a b = true ∨ le1 b a = true)
    (h2 : ∀ a b, le2 a b = true ∨ le2 b a = true) :
    ∀ a b : α × β, lexCombine le1 le2 a b = true ∨ lexCombine le1 le2 b a = true := by
  intro a b
  unfold lexCombine
  by_cases h : a.1 = b.1
  · simp only [if_pos h, if_pos h.symm]
    exact h2 a.2 b.2
  · simp only [if_neg h, if_neg (Ne.symm h)]
    exact h1 a.1 b.1

theorem lexCombine_trans {α β : Type} [DecidableEq α]
    (le1 : α → α → Bool) (le2 : β → β → Bool)
    (h1t : ∀ a b c, le1 a b = true → le1 b c = true → le1 a c = true)
    (h1a : ∀ a b, le1 a b = true → le1 b a = true → a = b)
    (h2t : ∀ a b c, le2 a b = true → le2 b c = true → le2 a c = true) :
    ∀ a b c : α × β, lexCombine le1 le2 a b = true → lexCombine le1 le2 b c = true →
      lexCombine le1 le2 a c = true := by
  intro a b c hab hbc
  unfold lexCombine at hab hbc ⊢
  by_cases hab1 : a.1 = b.1
  · by_cases hbc1 : b.1 = c.1
    · have hac : a.1 = c.1 := hab1.trans hbc1
      simp only [if_pos hab1] at hab
      simp only [if_pos hbc1] at hbc
      simp only [if_pos hac]
      exact h2t a.2 b.2 c.2 hab hbc
    · have hac : a.1 ≠ c.1 := by rw [hab1]; exact hbc1
      simp only [if_neg hbc1] at hbc
      simp only [hab1, if_neg hbc1]
      exact hbc
  · by_cases hbc1 : b.1 = c.1
    · have hac : a.1 ≠ c.1 := by rw [← hbc1]; exact hab1
      simp only [if_neg hab1] at hab
      simp only [← hbc1, if_neg hab1]
      exact hab
    · simp only [if_neg hab1] at hab
      simp only [if_neg hbc1] at hbc
      by_cases hac : a.1 = c.1
      · exfalso
        have h1 : le1 b.1 a.1 = true := by rw [hac]; exact hbc
        exact hab1 (h1a a.1 b.1 hab h1)
      · simp only [if_neg hac]
        exact h1t a.1 b.1 c.1 hab hbc

/-! ## HTTP error model -/

/-- A FastAPI `HTTPException(status_code=..., detail=...)`. -/
structure HTTPException where
  status : Nat
  detail : String
deriving DecidableEq, Repr

/-! ## Upstream retry loops (`app/main.py`) -/

/-- Statuses retried by every upstream call (`RETRIABLE_STATUS_CODES` in
`app/main.py`). -/
def RETRIABLE_STATUS_CODES : List Nat := [429, 500, 502, 503, 504]

/-- The observable outcome of one buffered upstream attempt, as seen by the
retry loops of `_get_with_retry` and `_post_json_with_retry`: either a
response with status code, body bytes and optional `content-type` header, or
an `httpx.TimeoutException`, or any other `httpx.RequestError`. -/
inductive UpstreamOutcome where
  | response (status : Nat) (body : List Nat) (contentType : Option String)
  | timeoutExc
  | requestError
deriving DecidableEq, Repr

/-- Whether the attempt ended in a transport error rather than a response. -/
def UpstreamOutcome.isTransportError : UpstreamOutcome → Bool
  | .response _ _ _ => false
  | .timeoutExc => true
  | .requestError => true

/-- The buffered retry loop shared by `_get_with_retry` and
`_post_json_with_retry` (`app/main.py`), started at attempt number `a` with
`fuel` further attempts allowed (`fuel = max_retries - a`, so `fuel = 0`
exactly when `attempt < settings.max_retries` is false).  `o a` is the
outcome of attempt `a`.  A retriable status with fuel left retries; any
other response is returned as `(status, body, content-type)` with the
content type defaulting to `application/json`; a transport error with no
fuel left raises 504 (timeout) or 502 (other). -/
def bufferedRetryFrom (path : String) (o : Nat → UpstreamOutcome) :
    Nat → Nat → Except HTTPException (Nat × List Nat × String)
  | a, 0 =>
    match o a with
    | .response st body ct => .ok (st, body, ct.getD "application/json")
    | .timeoutExc => .error ⟨504, "Upstream timeout on " ++ path⟩
    | .requestError => .error ⟨502, "Upstream request failed on " ++ path⟩
  | a, fuel + 1 =>
    match o a with
    | .response st body ct =>
      if st ∈ RETRIABLE_STATUS_CODES then bufferedRetryFrom path o (a + 1) fuel
      else .ok (st, body, ct.getD "application/json")
    | .timeoutExc => bufferedRetryFrom path o (a + 1) fuel
    | .requestError => bufferedRetryFrom path o (a + 1) fuel

/-- `_post_json_with_retry` (`app/main.py`): the whole buffered call, from
attempt `0` with `max_retries` retries allowed. -/
def postJsonWithRetry (maxRetries : Nat) (path : String) (o : Nat → UpstreamOutcome) :
    Except HTTPException (Nat × List Nat × String) :=
  bufferedRetryFrom path o 0 maxRetries

/-- `_get_with_retry` (`app/main.py`): identical control flow to
`_post_json_with_retry`, over GET attempts. -/
def getWithRetry (maxRetries : Nat) (path : String) (o : Nat → UpstreamOutcome) :
    Except HTTPException (Nat × List Nat × String) :=
  bufferedRetryFrom path o 0 maxRetries

/-- The observable outcome of one streaming upstream attempt in
`_post_stream_with_retry`: a response whose open handle is identified by a
number, or a transport error. -/
inductive StreamOutcome where
  | response (status : Nat) (handle : Nat)
  | timeoutExc
  | requestError
deriving DecidableEq, Repr

/-- Whether the streaming attempt ended in a transport error. -/
def StreamOutcome.isTransportError : StreamOutcome → Bool
  | .response _ _ => false
  | .timeoutExc => true
  | .requestError => true

/-- The retry loop of `_post_stream_with_retry` (`app/main.py`): the same
status/exception control flow as the buffered loop, but on success the open
response handle is returned to the caller. -/
def streamRetryFrom (path : String) (o : Nat → StreamOutcome) :
    Nat → Nat → Except HTTPException (Nat × Nat)
  | a, 0 =>
    match o a with
    | .response st h => .ok (st, h)
    | .timeoutExc => .error ⟨504, "Upstream timeout on " ++ path⟩
    | .requestError => .error ⟨502, "Upstream request failed on " ++ path⟩
  | a, fuel + 1 =>
    match o a with
    | .response st h =>
      if st ∈ RETRIABLE_STATUS_CODES then streamRetryFrom path o (a + 1) fuel
      else .ok (st, h)
    | .timeoutExc => streamRetryFrom path o (a + 1) fuel
    | .requestError => streamRetryFrom path o (a + 1) fuel

theorem bufferedRetryFrom_all_errors (path : String) (o : Nat → UpstreamOutcome) :
    ∀ (fuel a : Nat), (∀ i, a ≤ i → i < a + fuel → (o i).isTransportError = true) →
      bufferedRetryFrom path o a fuel = bufferedRetryFrom path o (a + fuel) 0 := by
  intro fuel
  induction fuel with
  | zero => intro a _; rfl
  | succ n ih =>
    intro a herr
    have ha : (o a).isTransportError = true := herr a (Nat.le_refl a) (by omega)
    have hrec : bufferedRetryFrom path o (a + 1) n = bufferedRetryFrom path o (a + 1 + n) 0 := by
      apply ih
      intro i h1 h2
      exact herr i (by omega) (by omega)
    have hgoal : a + 1 + n = a + (n + 1) := by omega
    rw [hgoal] at hrec
    cases hc : o a with
    | response st body ct => rw [hc] at ha; simp [UpstreamOutcome.isTransportError] at ha
    | timeoutExc =>
      conv_lhs => rw [bufferedRetryFrom, hc]
      exact hrec
    | requestError =>
      conv_lhs => rw [bufferedRetryFrom, hc]
      exact hrec

theorem streamRetryFrom_all_errors (path : String) (o : Nat → StreamOutcome) :
    ∀ (fuel a : Nat), (∀ i, a ≤ i → i < a + fuel → (o i).isTransportError = true) →
      streamRetryFrom path o a fuel = streamRetryFrom path o (a + fuel) 0 := by
  intro fuel
  induction fuel with
  | zero => intro a _; rfl
  | succ n ih =>
    intro a herr
    have ha : (o a).isTransportError = true := herr a (Nat.le_refl a) (by omega)
    have hrec : streamRetryFrom path o (a + 1) n = streamRetryFrom path o (a + 1 + n) 0 := by
      apply ih
      intro i h1 h2
      exact herr i (by omega) (by omega)
    have hgoal : a + 1 + n = a + (n + 1) := by omega
    rw [hgoal] at hrec
    cases hc : o a with
    | response st h => rw [hc] at ha; simp [StreamOutcome.isTransportError] at ha
    | timeoutExc =>
      conv_lhs => rw [streamRetryFrom, hc]
      exact hrec
    | requestError =>
      conv_lhs => rw [streamRetryFrom, hc]
      exact hrec

/-! ## Sliding-window rate limiter (`app/rate_limit.py`) -/

/-- The decision returned by `SlidingWindowRateLimiter.check`
(`RateLimitDecision` in `app/rate_limit.py`). -/
structure RateLimitDecision where
  allowed : Bool
  remaining : ℤ
  retry_after_s : ℤ
deriving DecidableEq, Repr

/-- Python `int()` applied to a rational: truncation toward zero. -/
def pyInt (q : ℚ) : ℤ := if 0 ≤ q then ⌊q⌋ else ⌈q⌉

/-- The pruning loop of `SlidingWindowRateLimiter.check`:
`while bucket and bucket[0] < window_start: bucket.popleft()`. -/
def dropOld (windowStart : ℚ) : List ℚ → List ℚ
  | [] => []
  | t :: ts => if t < windowStart then dropOld windowStart ts else t :: ts

/-- One `SlidingWindowRateLimiter.check` call on a single client's bucket at
monotonic time `now`, with configured `rpm` (the capacity is
`limit_per_minute = max 1 rpm` and the window is 60 s); returns the decision
and the mutated bucket.  On refusal `retry_after_s =
max(1, int(60 - (now - bucket[0])))` and nothing is appended; otherwise `now`
is appended and `remaining = limit - len(bucket)`. -/
def checkBucket (rpm : ℤ) (bucket : List ℚ) (now : ℚ) : RateLimitDecision × List ℚ :=
  let N : ℤ := max 1 rpm
  let b := dropOld (now - 60) bucket
  if N ≤ (b.length : ℤ) then
    (⟨false, 0, max 1 (pyInt (60 - (now - b.headI)))⟩, b)
  else
    (⟨true, N - ((b.length : ℤ) + 1), 0⟩, b ++ [now])

/-- A sequence of `check` calls for one client, threading the bucket:
the first component collects the decisions in call order. -/
def runChecks (rpm : ℤ) : List ℚ → List ℚ → List RateLimitDecision × List ℚ
  | bucket, [] => ([], bucket)
  | bucket, t :: ts =>
    let r := checkBucket rpm bucket t
    let rest := runChecks rpm r.2 ts
    (r.1 :: rest.1, rest.2)

theorem dropOld_eq_self (ws : ℚ) (l : List ℚ) (h : ∀ x ∈ l, ¬ x < ws) :
    dropOld ws l = l := by
  cases l with
  | nil => rfl
  | cons t ts =>
    simp only [dropOld]
    rw [if_neg (h t (List.mem_cons_self t ts))]

theorem dropOld_eq_filter (ws : ℚ) :
    ∀ (l : List ℚ), l.Pairwise (· ≤ ·) →
      dropOld ws l = l.filter (fun ts => decide (ws ≤ ts)) := by
  intro l
  induction l with
  | nil => intro _; rfl
  | cons t ts ih =>
    intro hp
    rw [List.pairwise_cons] at hp
    obtain ⟨ht, hts⟩ := hp
    simp only [dropOld, List.filter_cons]
    by_cases h : t < ws
    · rw [if_pos h]
      have hd : decide (ws ≤ t) = false := by
        simp [not_le.mpr h]
      simp only [hd, Bool.false_eq_true, if_false]
      exact ih hts
    · rw [if_neg h]
      have hws : ws ≤ t := not_lt.mp h
      have hd : decide (ws ≤ t) = true := by simp [hws]
      simp only [hd, if_true]
      have : ts.filter (fun x => decide (ws ≤ x)) = ts := by
        rw [List.filter_eq_self]
        intro a ha
        simp [le_trans hws (ht a ha)]
      rw [this]

/-! ## Claim theorems for the retry loops -/

/-- C1: For every buffered upstream call (`_get_with_retry` or
`_post_json_with_retry`, both of which run `bufferedRetryFrom` from attempt 0):
an attempt `a < max_retries` that receives a status in `{429, 500, 502, 503,
504}` triggers a retry, i.e. the call continues as the same loop started at
attempt `a + 1`; an attempt that receives any status outside that set returns
that status, body bytes and content type immediately, whatever fuel remains;
and when the last allowed attempt `a = max_retries` still receives a retriable
status, that upstream response is returned verbatim rather than being
rewritten to 502. -/
theorem buffered_retry_policy (path : String) (o : Nat → UpstreamOutcome)
    (maxRetries a st : Nat) (body : List Nat) (ct : Option String)
    (hresp : o a = .response st body ct) :
    (st ∈ RETRIABLE_STATUS_CODES → a < maxRetries →
        bufferedRetryFrom path o a (maxRetries - a) =
          bufferedRetryFrom path o (a + 1) (maxRetries - (a + 1)))
  ∧ (st ∉ RETRIABLE_STATUS_CODES → ∀ fuel,
        bufferedRetryFrom path o a fuel = .ok (st, body, ct.getD "application/json"))
  ∧ (st ∈ RETRIABLE_STATUS_CODES → a = maxRetries →
        bufferedRetryFrom path o a (maxRetries - a) =
          .ok (st, body, ct.getD "application/json")) := by
  refine ⟨?_, ?_, ?_⟩
  · intro hret hlt
    have h : maxRetries - a = (maxRetries - (a + 1)) + 1 := by omega
    rw [h]
    simp only [bufferedRetryFrom, hresp]
    rw [if_pos hret]
  · intro hret fuel
    cases fuel with
    | zero => simp only [bufferedRetryFrom, hresp]
    | succ n =>
      simp only [bufferedRetryFrom, hresp]
      rw [if_neg hret]
  · intro _ hEq
    subst hEq
    rw [Nat.sub_self]
    simp only [bufferedRetryFrom, hresp]

/-- Witness for `buffered_retry_policy`: with `max_retries = 2`, a 503 on
attempt 0 retries into attempt 1, and a 404 on attempt 1 is returned
immediately. -/
theorem buffered_retry_policy_witness :
    bufferedRetryFrom "/v1/models"
        (fun n => if n = 0 then .response 503 [] none else .response 404 [7] none) 0 (2 - 0) =
      bufferedRetryFrom "/v1/models"
        (fun n => if n = 0 then .response 503 [] none else .response 404 [7] none) 1 (2 - 1)
  ∧ bufferedRetryFrom "/v1/models"
        (fun n => if n = 0 then .response 503 [] none else .response 404 [7] none) 1 1 =
      .ok (404, [7], "application/json") := by
  constructor
  · exact (buffered_retry_policy "/v1/models"
      (fun n => if n = 0 then .response 503 [] none else .response 404 [7] none)
      2 0 503 [] none rfl).1 (by decide) (by decide)
  · exact (buffered_retry_policy "/v1/models"
      (fun n => if n = 0 then .response 503 [] none else .response 404 [7] none)
      2 1 404 [7] none rfl).2.1 (by decide) 1

/-- C4: when every attempt of a buffered or streaming upstream call fails with
a transport error, the call raises 504 with detail "Upstream timeout on
path" when the final failure is a timeout, and 502 with detail "Upstream
request failed on path" for any other transport error. -/
theorem retry_exhaustion_error_mapping (path : String)
    (o : Nat → UpstreamOutcome) (so : Nat → StreamOutcome) (maxRetries : Nat)
    (ho : ∀ i, i ≤ maxRetries → (o i).isTransportError = true)
    (hs : ∀ i, i ≤ maxRetries → (so i).isTransportError = true) :
    (o maxRetries = .timeoutExc →
       bufferedRetryFrom path o 0 maxRetries =
         .error ⟨504, "Upstream timeout on " ++ path⟩)
  ∧ (o maxRetries = .requestError →
       bufferedRetryFrom path o 0 maxRetries =
         .error ⟨502, "Upstream request failed on " ++ path⟩)
  ∧ (so maxRetries = .timeoutExc →
       streamRetryFrom path so 0 maxRetries =
         .error ⟨504, "Upstream timeout on " ++ path⟩)
  ∧ (so maxRetries = .requestError →
       streamRetryFrom path so 0 maxRetries =
         .error ⟨502, "Upstream request failed on " ++ path⟩) := by
  have hb : bufferedRetryFrom path o 0 maxRetries =
      bufferedRetryFrom path o (0 + maxRetries) 0 :=
    bufferedRetryFrom_all_errors path o maxRetries 0 (fun i _ h2 => ho i (by omega))
  have hst : streamRetryFrom path so 0 maxRetries =
      streamRetryFrom path so (0 + maxRetries) 0 :=
    streamRetryFrom_all_errors path so maxRetries 0 (fun i _ h2 => hs i (by omega))
  rw [Nat.zero_add] at hb hst
  refine ⟨?_, ?_, ?_, ?_⟩ <;> intro hlast
  · rw [hb]; simp only [bufferedRetryFrom, hlast]
  · rw [hb]; simp only [bufferedRetryFrom, hlast]
  · rw [hst]; simp only [streamRetryFrom, hlast]
  · rw [hst]; simp only [streamRetryFrom, hlast]

/-- Witness for `retry_exhaustion_error_mapping` with `max_retries = 1`:
all-timeout attempts end in 504, all-connect-error attempts end in 502. -/
theorem retry_exhaustion_error_mapping_witness :
    bufferedRetryFrom "/v1/embeddings" (fun _ => .timeoutExc) 0 1 =
      .error ⟨504, "Upstream timeout on /v1/embeddings"⟩
  ∧ streamRetryFrom "/v1/embeddings" (fun _ => .requestError) 0 1 =
      .error ⟨502, "Upstream request failed on /v1/embeddings"⟩ := by
  have h := retry_exhaustion_error_mapping "/v1/embeddings" (fun _ => .timeoutExc)
    (fun _ => .requestError) 1 (fun i _ => rfl) (fun i _ => rfl)
  exact ⟨h.1 rfl, h.2.2.2 rfl⟩

/-! ## Claim theorems for the rate limiter -/

/-- C2 counterexample: with capacity 1, bucket `[0]` and monotonic time
`1/2`, the code computes `retry_after_s = max(1, int(60 - 0.5)) = 59`
(Python `int()` truncates), while the claim's formula
`max(1, ceil(60 - (t - oldest)))` gives 60. -/
theorem rate_limiter_retry_after_counterexample :
    (checkBucket 1 [0] (1 / 2)).1.retry_after_s = 59
  ∧ max 1 ⌈(60 : ℚ) - (1 / 2 - 0)⌉ = (60 : ℤ)
  ∧ (59 : ℤ) ≠ 60 := by
  refine ⟨?_, ?_, by decide⟩
  · have hb : dropOld ((1 : ℚ) / 2 - 60) [0] = [0] := by
      simp only [dropOld]
      rw [if_neg (by norm_num)]
    have hf : pyInt (60 - ((1 : ℚ) / 2 - List.headI [0])) = 59 := by
      simp only [List.headI, pyInt]
      rw [if_pos (by norm_num)]
      rw [show (60 : ℚ) - (1 / 2 - 0) = 119 / 2 by norm_num]
      rw [Int.floor_eq_iff]
      norm_num
    simp only [checkBucket, hb]
    rw [if_pos (by norm_num)]
    simp only [hf]
    rfl
  · rw [show (60 : ℚ) - (1 / 2 - 0) = 119 / 2 by norm_num]
    rw [show (60 : ℤ) = max 1 60 by rfl]
    congr 1
    rw [Int.ceil_eq_iff]
    norm_num

/-- C2 (amended): a `check` call at time `now` on a sorted bucket first drops
from the head every timestamp older than `now - 60`; if the pruned size has
reached the capacity `max 1 rpm` it refuses without appending and returns
`retry_after_s = max(1, int(60 - (now - oldest)))` where `int` is Python's
truncation toward zero (the claim's `ceil` is amended to this truncation);
otherwise `now` is appended, the call allows and
`remaining = capacity - size`. -/
theorem rate_limiter_check_flow (rpm : ℤ) (bucket : List ℚ) (now : ℚ)
    (hsorted : bucket.Pairwise (· ≤ ·)) :
    (max 1 rpm ≤ ((bucket.filter (fun ts => decide (now - 60 ≤ ts))).length : ℤ) →
       checkBucket rpm bucket now =
         (⟨false, 0,
            max 1 (pyInt (60 - (now -
              (bucket.filter (fun ts => decide (now - 60 ≤ ts))).headI)))⟩,
          bucket.filter (fun ts => decide (now - 60 ≤ ts))))
  ∧ (((bucket.filter (fun ts => decide (now - 60 ≤ ts))).length : ℤ) < max 1 rpm →
       checkBucket rpm bucket now =
         (⟨true,
            max 1 rpm - (((bucket.filter (fun ts => decide (now - 60 ≤ ts))).length : ℤ) + 1),
            0⟩,
          bucket.filter (fun ts => decide (now - 60 ≤ ts)) ++ [now])) := by
  have hprune : dropOld (now - 60) bucket =
      bucket.filter (fun ts => decide (now - 60 ≤ ts)) :=
    dropOld_eq_filter (now - 60) bucket hsorted
  constructor
  · intro hge
    simp only [checkBucket, hprune]
    rw [if_pos hge]
  · intro hlt
    simp only [checkBucket, hprune]
    rw [if_neg (not_le.mpr hlt)]

/-- Witness for `rate_limiter_check_flow`: a refusal with capacity 1 on
bucket `[0]` at time `1/2`, and an allowance with capacity 2 on bucket `[0]`
at time `1`. -/
theorem rate_limiter_check_flow_witness :
    checkBucket 1 [0] (1 / 2) = (⟨false, 0, 59⟩, [0])
  ∧ checkBucket 2 [0] 1 = (⟨true, 0, 0⟩, [0, 1]) := by
  have hf1 : ([(0 : ℚ)].filter (fun ts => decide ((1 : ℚ) / 2 - 60 ≤ ts))) = [0] := by
    rw [List.filter_eq_self]
    intro a ha
    rw [List.mem_singleton] at ha
    subst ha
    simp only [decide_eq_true_eq]
    norm_num
  have hf2 : ([(0 : ℚ)].filter (fun ts => decide ((1 : ℚ) - 60 ≤ ts))) = [0] := by
    rw [List.filter_eq_self]
    intro a ha
    rw [List.mem_singleton] at ha
    subst ha
    simp only [decide_eq_true_eq]
    norm_num
  constructor
  · have h := (rate_limiter_check_flow 1 [0] (1 / 2) (by simp)).1
    rw [hf1] at h
    have h' := h (by norm_num)
    rw [h']
    have : pyInt (60 - ((1 : ℚ) / 2 - List.headI [0])) = 59 := by
      simp only [List.headI, pyInt]
      rw [if_pos (by norm_num)]
      rw [show (60 : ℚ) - (1 / 2 - 0) = 119 / 2 by norm_num]
      rw [Int.floor_eq_iff]
      norm_num
    rw [this]
    rfl
  · have h := (rate_limiter_check_flow 2 [0] 1 (by simp)).2
    rw [hf2] at h
    have h' := h (by norm_num)
    rw [h']
    rfl

theorem runChecks_append (rpm : ℤ) :
    ∀ (xs ys bucket : List ℚ),
      runChecks rpm bucket (xs ++ ys) =
        ((runChecks rpm bucket xs).1 ++ (runChecks rpm (runChecks rpm bucket xs).2 ys).1,
         (runChecks rpm (runChecks rpm bucket xs).2 ys).2) := by
  intro xs
  induction xs with
  | nil => intro ys bucket; simp [runChecks]
  | cons x xs ih =>
    intro ys bucket
    simp only [List.cons_append, runChecks, List.append_eq, ih]

theorem runChecks_all_allowed (rpm : ℤ) (n : ℕ) (hn : (n : ℤ) = max 1 rpm) :
    ∀ (ts bucket : List ℚ),
      bucket.length + ts.length ≤ n →
      (∀ x ∈ bucket, ∀ t ∈ ts, t - x ≤ 60) →
      (∀ x ∈ ts, ∀ t ∈ ts, t - x ≤ 60) →
      (runChecks rpm bucket ts).1 =
        (List.range ts.length).map
          (fun i => ⟨true, (n : ℤ) - ((bucket.length : ℤ) + (i : ℤ) + 1), 0⟩)
      ∧ (runChecks rpm bucket ts).2 = bucket ++ ts := by
  intro ts
  induction ts with
  | nil => intro bucket _ _ _; exact ⟨rfl, by simp [runChecks]⟩
  | cons t ts ih =>
    intro bucket hlen hbt htt
    simp only [List.length_cons] at hlen
    have hnoprune : dropOld (t - 60) bucket = bucket := by
      apply dropOld_eq_self
      intro x hx hlt
      have h1 : t - x ≤ 60 := hbt x hx t (List.mem_cons_self t ts)
      linarith
    have hblen : ((bucket.length : ℤ)) < max 1 rpm := by
      rw [← hn]
      have : bucket.length < n := by omega
      exact_mod_cast this
    have hcheck : checkBucket rpm bucket t =
        (⟨true, max 1 rpm - ((bucket.length : ℤ) + 1), 0⟩, bucket ++ [t]) := by
      simp only [checkBucket, hnoprune]
      rw [if_neg (not_le.mpr hblen)]
    have hbt' : ∀ x ∈ bucket ++ [t], ∀ u ∈ ts, u - x ≤ 60 := by
      intro x hx u hu
      rcases List.mem_append.mp hx with h | h
      · exact hbt x h u (List.mem_cons_of_mem t hu)
      · rw [List.mem_singleton] at h
        subst h
        exact htt x (List.mem_cons_self x ts) u (List.mem_cons_of_mem x hu)
    have htt' : ∀ x ∈ ts, ∀ u ∈ ts, u - x ≤ 60 := by
      intro x hx u hu
      exact htt x (List.mem_cons_of_mem t hx) u (List.mem_cons_of_mem t hu)
    obtain ⟨ih1, ih2⟩ := ih (bucket ++ [t])
      (by simp only [List.length_append, List.length_singleton]
          omega)
      hbt' htt'
    constructor
    · simp only [runChecks, hcheck, ih1]
      rw [List.length_cons, List.range_succ_eq_map, List.map_cons, List.map_map]
      congr 1
      · congr 1
        · rw [← hn]
          push_cast
          ring
      · apply List.map_congr_left
        intro i _
        simp only [Function.comp_apply]
        congr 2
        simp only [List.length_append, List.length_singleton]
        push_cast
        ring
    · simp only [runChecks, hcheck, ih2, List.append_assoc, List.singleton_append]

/-- C5: with capacity `N = max 1 rpm`, starting from an empty bucket,
`N + 1` checks for the same client within one 60 s window produce exactly one
refusal, namely the final call, and the `remaining` values of the `N` allowed
calls strictly decrease from `N - 1` down to `0`. -/
theorem sliding_window_burst (rpm : ℤ) (n : ℕ) (times : List ℚ)
    (hn : (n : ℤ) = max 1 rpm)
    (hlen : times.length = n + 1)
    (hwin : ∀ a ∈ times, ∀ b ∈ times, a - b ≤ 60) :
    ((runChecks rpm [] times).1.map RateLimitDecision.allowed =
        List.replicate n true ++ [false])
  ∧ (((runChecks rpm [] times).1.take n).map RateLimitDecision.remaining =
        (List.range n).map (fun i : ℕ => (n : ℤ) - 1 - (i : ℤ))) := by
  obtain ⟨t, ht⟩ : ∃ t, times.drop n = [t] := by
    apply List.length_eq_one.mp
    rw [List.length_drop, hlen]
    omega
  have hsplit : times = times.take n ++ [t] := by
    rw [← ht, List.take_append_drop]
  have htakelen : (times.take n).length = n := by
    rw [List.length_take, hlen]
    omega
  have htsub : ∀ x ∈ times.take n, x ∈ times := fun x hx => List.mem_of_mem_take hx
  have htmem : t ∈ times := by
    rw [hsplit]
    exact List.mem_append_right _ (List.mem_singleton_self t)
  obtain ⟨h1, h2⟩ := runChecks_all_allowed rpm n hn (times.take n) []
    (by simp [htakelen])
    (by intro x hx; simp at hx)
    (by intro x hx u hu; exact hwin u (htsub u hu) x (htsub x hx))
  have hfinal : (runChecks rpm (times.take n) [t]).1 =
      [(checkBucket rpm (times.take n) t).1] := by
    simp [runChecks]
  have hnoprune : dropOld (t - 60) (times.take n) = times.take n := by
    apply dropOld_eq_self
    intro x hx hlt
    have h1 : t - x ≤ 60 := hwin t htmem x (htsub x hx)
    linarith
  have hrefuse : (checkBucket rpm (times.take n) t).1.allowed = false := by
    simp only [checkBucket, hnoprune]
    rw [if_pos (by rw [htakelen, hn])]
  have hds : (runChecks rpm [] times).1 =
      (runChecks rpm [] (times.take n)).1 ++ [(checkBucket rpm (times.take n) t).1] := by
    conv_lhs => rw [hsplit]
    rw [runChecks_append, h2, List.nil_append, hfinal]
  have hlen1 : ((runChecks rpm [] (times.take n)).1).length = n := by
    rw [h1]
    simp [htakelen]
  constructor
  · rw [hds, List.map_append, h1, List.map_map, htakelen]
    congr 1
    · apply List.eq_replicate_iff.mpr
      constructor
      · simp
      · intro b hb
        simp only [List.mem_map] at hb
        obtain ⟨i, _, hbi⟩ := hb
        rw [← hbi]
        rfl
    · simp [hrefuse]
  · rw [hds, List.take_append_of_le_length (le_of_eq hlen1.symm),
      List.take_of_length_le (le_of_eq hlen1), h1, List.map_map, htakelen]
    apply List.map_congr_left
    intro i _
    simp only [Function.comp_apply, List.length_nil, Nat.cast_zero]
    ring

/-- Witness for `sliding_window_burst` with `rpm = 2` and calls at times
0, 1 and 2: allowed, allowed (remaining 1 then 0), then refused. -/
theorem sliding_window_burst_witness :
    ((runChecks 2 [] [0, 1, 2]).1.map RateLimitDecision.allowed =
        List.replicate 2 true ++ [false])
  ∧ (((runChecks 2 [] [0, 1, 2]).1.take 2).map RateLimitDecision.remaining =
        (List.range 2).map (fun i : ℕ => ((2 : ℕ) : ℤ) - 1 - (i : ℤ))) := by
  apply sliding_window_burst 2 2 [0, 1, 2] (by norm_num) (by norm_num)
  intro a ha b hb
  fin_cases ha <;> fin_cases hb <;> norm_num

/-! ## Model router (`app/routing.py`) -/

/-- `ModelRouter` state: the `MODEL_UPSTREAMS` map (model id to upstream base
URL, insertion ordered) and the default upstream base URL
(`settings.llama_cpp_base_url`). -/
structure ModelRouter where
  upstreams : List (String × String)
  defaultUpstream : String
deriving DecidableEq, Repr

/-- `ModelRouter.configured_models`: the configured model ids, sorted. -/
def configuredModels (r : ModelRouter) : List String :=
  sortLe strLeB (r.upstreams.map Prod.fst)

/-- `ModelRouter.upstream_for_model`: with an empty map every model goes to
the default upstream; otherwise a miss (or an empty, hence falsy, mapped
value) raises `HTTPException(400)` listing the configured models sorted and
comma separated. -/
def upstreamForModel (r : ModelRouter) (model : String) : Except HTTPException String :=
  if r.upstreams = [] then .ok r.defaultUpstream
  else
    match findVal r.upstreams model with
    | none =>
        .error ⟨400, "Unknown model \x27" ++ model ++ "\x27. Available models: " ++
          String.intercalate ", " (configuredModels r)⟩
    | some u =>
        if u = "" then
          .error ⟨400, "Unknown model \x27" ++ model ++ "\x27. Available models: " ++
            String.intercalate ", " (configuredModels r)⟩
        else .ok u

/-- C3: `upstream_for_model` returns the configured default upstream whenever
the model map is empty, and on a lookup miss with a non-empty map fails with
HTTP 400 whose detail lists the configured model ids sorted (w.r.t. the
string order, as `sorted` does) and comma separated. -/
theorem router_default_and_unknown_model (r : ModelRouter) (model : String) :
    (r.upstreams = [] → upstreamForModel r model = .ok r.defaultUpstream)
  ∧ (r.upstreams ≠ [] → findVal r.upstreams model = none →
      upstreamForModel r model =
        .error ⟨400, "Unknown model \x27" ++ model ++ "\x27. Available models: " ++
          String.intercalate ", " (configuredModels r)⟩
      ∧ (configuredModels r).Pairwise (fun a b => strLeB a b = true)) := by
  constructor
  · intro hempty
    simp only [upstreamForModel]
    rw [if_pos hempty]
  · intro hne hmiss
    constructor
    · simp only [upstreamForModel]
      rw [if_neg hne, hmiss]
    · exact pairwise_sortLe strLeB strLeB_total strLeB_trans _

/-- Witness for `router_default_and_unknown_model`: an empty map routes to
the default, and a two-model map rejects an unknown model naming the two
models in sorted order. -/
theorem router_default_and_unknown_model_witness :
    upstreamForModel ⟨[], "http://127.0.0.1:8080"⟩ "llama" = .ok "http://127.0.0.1:8080"
  ∧ upstreamForModel ⟨[("q", "http://b"), ("a", "http://c")], "http://d"⟩ "zzz" =
      .error ⟨400, "Unknown model \x27zzz\x27. Available models: a, q"⟩ := by
  constructor
  · exact (router_default_and_unknown_model ⟨[], "http://127.0.0.1:8080"⟩ "llama").1 rfl
  · have h := ((router_default_and_unknown_model
      ⟨[("q", "http://b"), ("a", "http://c")], "http://d"⟩ "zzz").2
      (by decide) (by decide)).1
    rw [h]
    rfl

/-! ## API key authentication (`app/auth.py`) -/

/-- A `ClientIdentity` as returned by `ApiKeyAuth.authenticate`. -/
structure ClientIdentity where
  client_id : String
  key : String
deriving DecidableEq, Repr

/-- `ApiKeyAuth.authenticate`, over the key table built at startup (a map
from bearer key to client id).  With no keys configured authentication is
disabled and every request maps to `("anonymous", "")`.  Otherwise the
header must be present, non-empty and begin with the literal `Bearer `
(case sensitive); the remainder is trimmed and looked up, and a miss (or a
falsy, i.e. empty, stored client id) yields 401 `Invalid API key`. -/
def authenticate (keys : List (String × String)) (authorization : Option String) :
    Except HTTPException ClientIdentity :=
  if keys = [] then .ok ⟨"anonymous", ""⟩
  else
    match authorization with
    | none => .error ⟨401, "Missing or invalid Authorization header"⟩
    | some s =>
        if ¬ strStartsWith s "Bearer " = true then
          .error ⟨401, "Missing or invalid Authorization header"⟩
        else
          match findVal keys (pyStrip (strDrop s 7)) with
          | none => .error ⟨401, "Invalid API key"⟩
          | some cid =>
              if cid = "" then .error ⟨401, "Invalid API key"⟩
              else .ok ⟨cid, pyStrip (strDrop s 7)⟩

/-- C6: `authenticate` returns identity `("anonymous", "")` for every input
whenever no keys are configured; otherwise it fails with 401 "Missing or
invalid Authorization header" when the header is absent or does not begin
with the literal, case-sensitive prefix `Bearer ` (an empty header value is
covered by the latter), and fails with 401 "Invalid API key" when the
extracted, whitespace-trimmed token is not in the key table. -/
theorem api_key_auth_cases (keys : List (String × String)) (auth : Option String) :
    (keys = [] → authenticate keys auth = .ok ⟨"anonymous", ""⟩)
  ∧ (keys ≠ [] →
      (auth = none ∨ ∃ s, auth = some s ∧ strStartsWith s "Bearer " = false) →
      authenticate keys auth = .error ⟨401, "Missing or invalid Authorization header"⟩)
  ∧ (keys ≠ [] → ∀ s, auth = some s → strStartsWith s "Bearer " = true →
      findVal keys (pyStrip (strDrop s 7)) = none →
      authenticate keys auth = .error ⟨401, "Invalid API key"⟩) := by
  refine ⟨?_, ?_, ?_⟩
  · intro hempty
    simp only [authenticate]
    rw [if_pos hempty]
  · intro hne hbad
    rcases hbad with h | ⟨s, hs, hpre⟩
    · simp only [authenticate, h, if_neg hne]
    · simp only [authenticate, hs, if_neg hne]
      rw [if_pos (by simp [hpre])]
  · intro hne s hs hpre hmiss
    simp only [authenticate, hs, if_neg hne]
    rw [if_neg (by simp [hpre])]
    simp only [hmiss]

/-- Witness for `api_key_auth_cases`: disabled auth admits anything; with a
configured key, a missing header and an unknown token are rejected with the
two distinct 401 details. -/
theorem api_key_auth_cases_witness :
    authenticate [] (some "whatever") = .ok ⟨"anonymous", ""⟩
  ∧ authenticate [("test-key", "test-client")] none =
      .error ⟨401, "Missing or invalid Authorization header"⟩
  ∧ authenticate [("test-key", "test-client")] (some "Bearer nope") =
      .error ⟨401, "Invalid API key"⟩ := by
  refine ⟨?_, ?_, ?_⟩
  · exact (api_key_auth_cases [] (some "whatever")).1 rfl
  · exact (api_key_auth_cases [("test-key", "test-client")] none).2.1
      (by decide) (Or.inl rfl)
  · exact (api_key_auth_cases [("test-key", "test-client")] (some "Bearer nope")).2.2
      (by decide) "Bearer nope" rfl (by decide) (by decide)

/-! ## Metrics registry (`app/metrics.py`) -/

/-- The mutable counter state of `MetricsRegistry`; each `defaultdict` is an
insertion-ordered association list and latency sums are rationals. -/
structure MetricsRegistry where
  requests_total : List ((String × String × Nat) × Nat)
  request_latency_sum : List ((String × String) × ℚ)
  request_latency_count : List ((String × String) × Nat)
  upstream_retries_total : List (String × Nat)
  upstream_latency_sum : List (String × ℚ)
  upstream_latency_count : List (String × Nat)
  upstream_errors_total : List (String × Nat)
  rate_limited_total : Nat
deriving DecidableEq, Repr

/-- The registry at process start: every mapping empty, scalar zero. -/
def initialRegistry : MetricsRegistry := ⟨[], [], [], [], [], [], [], 0⟩

/-- `MetricsRegistry.record_request`. -/
def recordRequest (m : MetricsRegistry) (route method : String) (status : Nat)
    (latency_s : ℚ) : MetricsRegistry :=
  { m with
    requests_total := bump m.requests_total (route, method, status) 1
    request_latency_sum := bump m.request_latency_sum (route, method) latency_s
    request_latency_count := bump m.request_latency_count (route, method) 1 }

/-- `MetricsRegistry.record_upstream_retry`. -/
def recordUpstreamRetry (m : MetricsRegistry) (route : String) : MetricsRegistry :=
  { m with upstream_retries_total := bump m.upstream_retries_total route 1 }

/-- `MetricsRegistry.record_upstream_latency`. -/
def recordUpstreamLatency (m : MetricsRegistry) (route : String) (latency_s : ℚ) :
    MetricsRegistry :=
  { m with
    upstream_latency_sum := bump m.upstream_latency_sum route latency_s
    upstream_latency_count := bump m.upstream_latency_count route 1 }

/-- `MetricsRegistry.record_upstream_error`. -/
def recordUpstreamError (m : MetricsRegistry) (route : String) : MetricsRegistry :=
  { m with upstream_errors_total := bump m.upstream_errors_total route 1 }

/-- `MetricsRegistry.record_rate_limited`. -/
def recordRateLimited (m : MetricsRegistry) : MetricsRegistry :=
  { m with rate_limited_total := m.rate_limited_total + 1 }

/-- One recording operation on the registry. -/
inductive MetricsOp where
  | request (route method : String) (status : Nat) (latency_s : ℚ)
  | upstreamRetry (route : String)
  | upstreamLatency (route : String) (latency_s : ℚ)
  | upstreamError (route : String)
  | rateLimited
deriving DecidableEq, Repr

/-- Apply one recording operation. -/
def applyOp (m : MetricsRegistry) : MetricsOp → MetricsRegistry
  | .request route method status latency_s => recordRequest m route method status latency_s
  | .upstreamRetry route => recordUpstreamRetry m route
  | .upstreamLatency route latency_s => recordUpstreamLatency m route latency_s
  | .upstreamError route => recordUpstreamError m route
  | .rateLimited => recordRateLimited m

/-- Apply a sequence of recording operations, oldest first. -/
def applyOps (m : MetricsRegistry) (ops : List MetricsOp) : MetricsRegistry :=
  ops.foldl applyOp m

/-- The latencies recorded by an operation are non-negative (they are
differences of monotonic-clock readings). -/
def MetricsOp.nonneg : MetricsOp → Prop
  | .request _ _ _ latency_s => 0 ≤ latency_s
  | .upstreamLatency _ latency_s => 0 ≤ latency_s
  | _ => True

/-! ### Prometheus rendering -/

/-- Zero-pad a decimal string on the left to width `w`. -/
def padZeros (w : Nat) (s : String) : String :=
  String.mk (List.replicate (w - s.length) '0') ++ s

/-- Fixed-point rendering with six fractional digits, modelling Python
`f"{value:.6f}"` on the registry's rational latency sums. -/
def fmt6 (q : ℚ) : String :=
  let n : ℤ := ⌊q * 1000000 + 1 / 2⌋
  let sign := if n < 0 then "-" else ""
  let m := n.natAbs
  sign ++ toString (m / 1000000) ++ "." ++ padZeros 6 (toString (m % 1000000))

/-- The `proxy_requests_total{route=...,method=...,status=...} value` line. -/
def requestsTotalLine (key : String × String × Nat) (value : Nat) : String :=
  "proxy_requests_total\x7broute=\"" ++ key.1 ++ "\",method=\"" ++ key.2.1 ++
    "\",status=\"" ++ toString key.2.2 ++ "\"\x7d " ++ toString value

/-- A `name{route=...,method=...} value` line. -/
def routeMethodLine (name : String) (key : String × String) (value : String) : String :=
  name ++ "\x7broute=\"" ++ key.1 ++ "\",method=\"" ++ key.2 ++ "\"\x7d " ++ value

/-- A `name{route=...} value` line. -/
def routeLine (name route value : String) : String :=
  name ++ "\x7broute=\"" ++ route ++ "\"\x7d " ++ value

/-- Python ordering on `(route, method, status)` keys. -/
def reqKeyLe : (String × String × Nat) → (String × String × Nat) → Bool :=
  lexCombine strLeB (lexCombine strLeB (fun a b : Nat => decide (a ≤ b)))

/-- Python ordering on `(route, method)` keys. -/
def rmKeyLe : (String × String) → (String × String) → Bool :=
  lexCombine strLeB strLeB

/-- Python `sorted(d.items())` for a dictionary with unique keys: sort the
pairs by key. -/
def sortedItems {κ ν : Type} (keyLe : κ → κ → Bool) (l : List (κ × ν)) : List (κ × ν) :=
  sortLe (fun a b => keyLe a.1 b.1) l

/-- The lines built by `MetricsRegistry.render_prometheus`, in emission
order: for each family a `# HELP` line, a `# TYPE name counter` line, then
one line per key of the mapping in sorted order (the scalar
`proxy_rate_limited_total` has a single unlabelled line). -/
def prometheusLines (m : MetricsRegistry) : List String :=
  (["# HELP proxy_requests_total Total requests handled by the proxy",
    "# TYPE proxy_requests_total counter"] ++
    (sortedItems reqKeyLe m.requests_total).map
      (fun kv => requestsTotalLine kv.1 kv.2)) ++
  (["# HELP proxy_request_latency_seconds_sum Sum of request latency in seconds",
    "# TYPE proxy_request_latency_seconds_sum counter"] ++
    (sortedItems rmKeyLe m.request_latency_sum).map
      (fun kv => routeMethodLine "proxy_request_latency_seconds_sum" kv.1 (fmt6 kv.2))) ++
  (["# HELP proxy_request_latency_seconds_count Count of request latency measurements",
    "# TYPE proxy_request_latency_seconds_count counter"] ++
    (sortedItems rmKeyLe m.request_latency_count).map
      (fun kv => routeMethodLine "proxy_request_latency_seconds_count" kv.1 (toString kv.2))) ++
  (["# HELP proxy_upstream_retries_total Total upstream retries",
    "# TYPE proxy_upstream_retries_total counter"] ++
    (sortedItems strLeB m.upstream_retries_total).map
      (fun kv => routeLine "proxy_upstream_retries_total" kv.1 (toString kv.2))) ++
  (["# HELP proxy_upstream_latency_seconds_sum Sum of upstream latency in seconds",
    "# TYPE proxy_upstream_latency_seconds_sum counter"] ++
    (sortedItems strLeB m.upstream_latency_sum).map
      (fun kv => routeLine "proxy_upstream_latency_seconds_sum" kv.1 (fmt6 kv.2))) ++
  (["# HELP proxy_upstream_latency_seconds_count Count of upstream latency measurements",
    "# TYPE proxy_upstream_latency_seconds_count counter"] ++
    (sortedItems strLeB m.upstream_latency_count).map
      (fun kv => routeLine "proxy_upstream_latency_seconds_count" kv.1 (toString kv.2))) ++
  (["# HELP proxy_upstream_errors_total Total upstream errors",
    "# TYPE proxy_upstream_errors_total counter"] ++
    (sortedItems strLeB m.upstream_errors_total).map
      (fun kv => routeLine "proxy_upstream_errors_total" kv.1 (toString kv.2))) ++
  (["# HELP proxy_rate_limited_total Total requests rejected by rate limit",
    "# TYPE proxy_rate_limited_total counter"] ++
    ["proxy_rate_limited_total " ++ toString m.rate_limited_total])

/-- `MetricsRegistry.render_prometheus`: the lines joined with newlines and a
trailing newline after the last line. -/
def renderPrometheus (m : MetricsRegistry) : String :=
  String.intercalate "\n" (prometheusLines m) ++ "\n"

/-- A Prometheus counter family block: `# HELP`, `# TYPE name counter`, then
the per-key lines. -/
def promFamily (name helpText : String) (body : List String) : List String :=
  ("# HELP " ++ name ++ " " ++ helpText) :: ("# TYPE " ++ name ++ " counter") :: body

theorem natLeB_total : ∀ a b : Nat, decide (a ≤ b) = true ∨ decide (b ≤ a) = true := by
  intro a b
  rcases Nat.le_total a b with h | h
  · left; simp [h]
  · right; simp [h]

theorem natLeB_trans : ∀ a b c : Nat,
    decide (a ≤ b) = true → decide (b ≤ c) = true → decide (a ≤ c) = true := by
  intro a b c hab hbc
  simp only [decide_eq_true_eq] at hab hbc ⊢
  omega

theorem reqKeyLe_total : ∀ a b, reqKeyLe a b = true ∨ reqKeyLe b a = true :=
  lexCombine_total _ _ strLeB_total
    (lexCombine_total _ _ strLeB_total natLeB_total)

theorem reqKeyLe_trans : ∀ a b c,
    reqKeyLe a b = true → reqKeyLe b c = true → reqKeyLe a c = true :=
  lexCombine_trans _ _ strLeB_trans strLeB_antisymm
    (lexCombine_trans _ _ strLeB_trans strLeB_antisymm natLeB_trans)

theorem rmKeyLe_total : ∀ a b, rmKeyLe a b = true ∨ rmKeyLe b a = true :=
  lexCombine_total _ _ strLeB_total strLeB_total

theorem rmKeyLe_trans : ∀ a b c,
    rmKeyLe a b = true → rmKeyLe b c = true → rmKeyLe a c = true :=
  lexCombine_trans _ _ strLeB_trans strLeB_antisymm strLeB_trans

theorem sortedItems_pairwise {κ ν : Type} (keyLe : κ → κ → Bool)
    (htotal : ∀ a b, keyLe a b = true ∨ keyLe b a = true)
    (htrans : ∀ a b c, keyLe a b = true → keyLe b c = true → keyLe a c = true)
    (l : List (κ × ν)) :
    (sortedItems keyLe l).Pairwise (fun a b => keyLe a.1 b.1 = true) :=
  pairwise_sortLe _ (fun a b => htotal a.1 b.1)
    (fun a b c => htrans a.1 b.1 c.1) l

/-- C8: `render_prometheus` emits, for each of the eight families with their
exact names, a `# HELP` line, then a `# TYPE name counter` line, then one
line per key sorted lexicographically by the tuple of labels
(`proxy_rate_limited_total` is a scalar with a single unlabelled line), and
the whole output ends with a trailing newline after the last line. -/
theorem render_prometheus_structure (m : MetricsRegistry) :
    renderPrometheus m =
      String.intercalate "\n"
        (promFamily "proxy_requests_total" "Total requests handled by the proxy"
            ((sortedItems reqKeyLe m.requests_total).map
              (fun kv => requestsTotalLine kv.1 kv.2))
         ++ promFamily "proxy_request_latency_seconds_sum"
            "Sum of request latency in seconds"
            ((sortedItems rmKeyLe m.request_latency_sum).map
              (fun kv => routeMethodLine "proxy_request_latency_seconds_sum" kv.1 (fmt6 kv.2)))
         ++ promFamily "proxy_request_latency_seconds_count"
            "Count of request latency measurements"
            ((sortedItems rmKeyLe m.request_latency_count).map
              (fun kv => routeMethodLine "proxy_request_latency_seconds_count" kv.1
                (toString kv.2)))
         ++ promFamily "proxy_upstream_retries_total" "Total upstream retries"
            ((sortedItems strLeB m.upstream_retries_total).map
              (fun kv => routeLine "proxy_upstream_retries_total" kv.1 (toString kv.2)))
         ++ promFamily "proxy_upstream_latency_seconds_sum"
            "Sum of upstream latency in seconds"
            ((sortedItems strLeB m.upstream_latency_sum).map
              (fun kv => routeLine "proxy_upstream_latency_seconds_sum" kv.1 (fmt6 kv.2)))
         ++ promFamily "proxy_upstream_latency_seconds_count"
            "Count of upstream latency measurements"
            ((sortedItems strLeB m.upstream_latency_count).map
              (fun kv => routeLine "proxy_upstream_latency_seconds_count" kv.1 (toString kv.2)))
         ++ promFamily "proxy_upstream_errors_total" "Total upstream errors"
            ((sortedItems strLeB m.upstream_errors_total).map
              (fun kv => routeLine "proxy_upstream_errors_total" kv.1 (toString kv.2)))
         ++ promFamily "proxy_rate_limited_total" "Total requests rejected by rate limit"
            ["proxy_rate_limited_total " ++ toString m.rate_limited_total]) ++ "\n"
  ∧ (sortedItems reqKeyLe m.requests_total).Pairwise (fun a b => reqKeyLe a.1 b.1 = true)
  ∧ (sortedItems rmKeyLe m.request_latency_sum).Pairwise
      (fun a b => rmKeyLe a.1 b.1 = true)
  ∧ (sortedItems rmKeyLe m.request_latency_count).Pairwise
      (fun a b => rmKeyLe a.1 b.1 = true)
  ∧ (sortedItems strLeB m.upstream_retries_total).Pairwise
      (fun a b => strLeB a.1 b.1 = true)
  ∧ (sortedItems strLeB m.upstream_latency_sum).Pairwise
      (fun a b => strLeB a.1 b.1 = true)
  ∧ (sortedItems strLeB m.upstream_latency_count).Pairwise
      (fun a b => strLeB a.1 b.1 = true)
  ∧ (sortedItems strLeB m.upstream_errors_total).Pairwise
      (fun a b => strLeB a.1 b.1 = true)
  ∧ (renderPrometheus m).data.getLast? = some (Char.ofNat 10) := by
  refine ⟨?_, ?_, ?_, ?_, ?_, ?_, ?_, ?_, ?_⟩
  · simp only [renderPrometheus, prometheusLines, promFamily]
    simp [List.append_assoc]
  · exact sortedItems_pairwise reqKeyLe reqKeyLe_total reqKeyLe_trans _
  · exact sortedItems_pairwise rmKeyLe rmKeyLe_total rmKeyLe_trans _
  · exact sortedItems_pairwise rmKeyLe rmKeyLe_total rmKeyLe_trans _
  · exact sortedItems_pairwise strLeB strLeB_total strLeB_trans _
  · exact sortedItems_pairwise strLeB strLeB_total strLeB_trans _
  · exact sortedItems_pairwise strLeB strLeB_total strLeB_trans _
  · exact sortedItems_pairwise strLeB strLeB_total strLeB_trans _
  · show (String.intercalate "\n" (prometheusLines m) ++ "\n").data.getLast? = _
    rw [String.data_append]
    have h : "\n".data = [Char.ofNat 10] := rfl
    rw [h]
    exact List.getLast?_concat _

theorem findVal_bump_ne {α β : Type} [DecidableEq α] [Add β]
    (m : List (α × β)) (k a : α) (x : β) (h : a ≠ k) :
    findVal (bump m k x) a = findVal m a := by
  induction m with
  | nil =>
    simp only [bump, findVal]
    rw [if_neg (fun hk => h hk.symm)]
  | cons p rest ih =>
    obtain ⟨k', v'⟩ := p
    by_cases hk : k' = k
    · subst hk
      simp only [bump, if_pos rfl, findVal]
      rw [if_neg (fun hk => h hk.symm), if_neg (fun hk => h hk.symm)]
    · simp only [bump, if_neg hk, findVal]
      by_cases ha : k' = a
      · rw [if_pos ha, if_pos ha]
      · rw [if_neg ha, if_neg ha]
        exact ih

theorem findVal_bump_one_pos {α : Type} [DecidableEq α] (m : List (α × Nat)) (k : α) :
    ∃ c, findVal (bump m k 1) k = some c ∧ 0 < c := by
  induction m with
  | nil => exact ⟨1, by simp [bump, findVal], by omega⟩
  | cons p rest ih =>
    obtain ⟨k', v'⟩ := p
    by_cases hk : k' = k
    · subst hk
      exact ⟨v' + 1, by simp [bump, findVal], by omega⟩
    · simp only [bump, if_neg hk, findVal]
      exact ih

theorem mem_keys_bump {α β : Type} [DecidableEq α] [Add β]
    (m : List (α × β)) (k : α) (x : β) (a : α) :
    a ∈ (bump m k x).map Prod.fst ↔ a ∈ m.map Prod.fst ∨ a = k := by
  induction m with
  | nil => simp [bump, eq_comm]
  | cons p rest ih =>
    obtain ⟨k', v'⟩ := p
    by_cases hk : k' = k
    · subst hk
      simp [bump, eq_comm]
      tauto
    · simp only [bump, if_neg hk, List.map_cons, List.mem_cons, ih]
      tauto

theorem findVal_bump_le {α β : Type} [DecidableEq α] [OrderedAddCommMonoid β]
    (m : List (α × β)) (k a : α) (x : β) (hx : 0 ≤ x) :
    (findVal m a).getD 0 ≤ (findVal (bump m k x) a).getD 0 := by
  induction m with
  | nil =>
    simp only [bump, findVal]
    by_cases h : k = a
    · rw [if_pos h]
      simpa using hx
    · rw [if_neg h]
  | cons p rest ih =>
    obtain ⟨k', v'⟩ := p
    by_cases hk : k' = k
    · subst hk
      simp only [bump, if_pos rfl, findVal]
      by_cases ha : k' = a
      · rw [if_pos ha, if_pos ha]
        simpa using le_add_of_nonneg_right hx
      · rw [if_neg ha, if_neg ha]
    · simp only [bump, if_neg hk, findVal]
      by_cases ha : k' = a
      · rw [if_pos ha, if_pos ha]
      · rw [if_neg ha, if_neg ha]
        exact ih

/-- The sum/count alignment invariant of the registry: every key present in
a latency `*_sum` mapping is present in the matching `*_count` mapping with
a non-zero count. -/
def sumCountAligned (m : MetricsRegistry) : Prop :=
  (∀ k, k ∈ m.request_latency_sum.map Prod.fst →
     ∃ c, findVal m.request_latency_count k = some c ∧ 0 < c)
  ∧ (∀ k, k ∈ m.upstream_latency_sum.map Prod.fst →
     ∃ c, findVal m.upstream_latency_count k = some c ∧ 0 < c)

/-- Pointwise order on registries: every counter of `m` is at most the
matching counter of `n` (absent keys count as zero). -/
def counterLe (m n : MetricsRegistry) : Prop :=
  (∀ k, (findVal m.requests_total k).getD 0 ≤ (findVal n.requests_total k).getD 0)
  ∧ (∀ k, (findVal m.request_latency_sum k).getD 0 ≤
      (findVal n.request_latency_sum k).getD 0)
  ∧ (∀ k, (findVal m.request_latency_count k).getD 0 ≤
      (findVal n.request_latency_count k).getD 0)
  ∧ (∀ k, (findVal m.upstream_retries_total k).getD 0 ≤
      (findVal n.upstream_retries_total k).getD 0)
  ∧ (∀ k, (findVal m.upstream_latency_sum k).getD 0 ≤
      (findVal n.upstream_latency_sum k).getD 0)
  ∧ (∀ k, (findVal m.upstream_latency_count k).getD 0 ≤
      (findVal n.upstream_latency_count k).getD 0)
  ∧ (∀ k, (findVal m.upstream_errors_total k).getD 0 ≤
      (findVal n.upstream_errors_total k).getD 0)
  ∧ m.rate_limited_total ≤ n.rate_limited_total

theorem counterLe_refl (m : MetricsRegistry) : counterLe m m :=
  ⟨fun _ => le_refl _, fun _ => le_refl _, fun _ => le_refl _, fun _ => le_refl _,
   fun _ => le_refl _, fun _ => le_refl _, fun _ => le_refl _, le_refl _⟩

theorem counterLe_trans {a b c : MetricsRegistry}
    (hab : counterLe a b) (hbc : counterLe b c) : counterLe a c :=
  ⟨fun k => le_trans (hab.1 k) (hbc.1 k),
   fun k => le_trans (hab.2.1 k) (hbc.2.1 k),
   fun k => le_trans (hab.2.2.1 k) (hbc.2.2.1 k),
   fun k => le_trans (hab.2.2.2.1 k) (hbc.2.2.2.1 k),
   fun k => le_trans (hab.2.2.2.2.1 k) (hbc.2.2.2.2.1 k),
   fun k => le_trans (hab.2.2.2.2.2.1 k) (hbc.2.2.2.2.2.1 k),
   fun k => le_trans (hab.2.2.2.2.2.2.1 k) (hbc.2.2.2.2.2.2.1 k),
   le_trans hab.2.2.2.2.2.2.2 hbc.2.2.2.2.2.2.2⟩

theorem applyOp_counterLe (m : MetricsRegistry) (op : MetricsOp) (hop : op.nonneg) :
    counterLe m (applyOp m op) := by
  cases op with
  | request route method status latency_s =>
    refine ⟨?_, ?_, ?_, ?_, ?_, ?_, ?_, ?_⟩ <;>
      simp only [applyOp, recordRequest]
    · exact fun k => findVal_bump_le _ _ k _ (by omega)
    · exact fun k => findVal_bump_le _ _ k _ hop
    · exact fun k => findVal_bump_le _ _ k _ (by omega)
    · exact fun _ => le_refl _
    · exact fun _ => le_refl _
    · exact fun _ => le_refl _
    · exact fun _ => le_refl _
    · exact le_refl _
  | upstreamRetry route =>
    refine ⟨?_, ?_, ?_, ?_, ?_, ?_, ?_, ?_⟩ <;>
      simp only [applyOp, recordUpstreamRetry]
    · exact fun _ => le_refl _
    · exact fun _ => le_refl _
    · exact fun _ => le_refl _
    · exact fun k => findVal_bump_le _ _ k _ (by omega)
    · exact fun _ => le_refl _
    · exact fun _ => le_refl _
    · exact fun _ => le_refl _
    · exact le_refl _
  | upstreamLatency route latency_s =>
    refine ⟨?_, ?_, ?_, ?_, ?_, ?_, ?_, ?_⟩ <;>
      simp only [applyOp, recordUpstreamLatency]
    · exact fun _ => le_refl _
    · exact fun _ => le_refl _
    · exact fun _ => le_refl _
    · exact fun _ => le_refl _
    · exact fun k => findVal_bump_le _ _ k _ hop
    · exact fun k => findVal_bump_le _ _ k _ (by omega)
    · exact fun _ => le_refl _
    · exact le_refl _
  | upstreamError route =>
    refine ⟨?_, ?_, ?_, ?_, ?_, ?_, ?_, ?_⟩ <;>
      simp only [applyOp, recordUpstreamError]
    · exact fun _ => le_refl _
    · exact fun _ => le_refl _
    · exact fun _ => le_refl _
    · exact fun _ => le_refl _
    · exact fun _ => le_refl _
    · exact fun _ => le_refl _
    · exact fun k => findVal_bump_le _ _ k _ (by omega)
    · exact le_refl _
  | rateLimited =>
    refine ⟨?_, ?_, ?_, ?_, ?_, ?_, ?_, ?_⟩ <;>
      simp only [applyOp, recordRateLimited]
    · exact fun _ => le_refl _
    · exact fun _ => le_refl _
    · exact fun _ => le_refl _
    · exact fun _ => le_refl _
    · exact fun _ => le_refl _
    · exact fun _ => le_refl _
    · exact fun _ => le_refl _
    · omega

theorem applyOp_aligned (m : MetricsRegistry) (op : MetricsOp)
    (h : sumCountAligned m) : sumCountAligned (applyOp m op) := by
  obtain ⟨h1, h2⟩ := h
  cases op with
  | request route method status latency_s =>
    constructor
    · intro k hk
      simp only [applyOp, recordRequest] at hk ⊢
      rcases (mem_keys_bump _ _ _ k).mp hk with hmem | hkey
      · by_cases hkk : k = (route, method)
        · subst hkk
          exact findVal_bump_one_pos _ _
        · rw [findVal_bump_ne _ _ _ _ hkk]
          exact h1 k hmem
      · subst hkey
        exact findVal_bump_one_pos _ _
    · intro k hk
      simp only [applyOp, recordRequest] at hk ⊢
      exact h2 k hk
  | upstreamRetry route =>
    exact ⟨fun k hk => h1 k hk, fun k hk => h2 k hk⟩
  | upstreamLatency route latency_s =>
    constructor
    · intro k hk
      simp only [applyOp, recordUpstreamLatency] at hk ⊢
      exact h1 k hk
    · intro k hk
      simp only [applyOp, recordUpstreamLatency] at hk ⊢
      rcases (mem_keys_bump _ _ _ k).mp hk with hmem | hkey
      · by_cases hkk : k = route
        · subst hkk
          exact findVal_bump_one_pos _ _
        · rw [findVal_bump_ne _ _ _ _ hkk]
          exact h2 k hmem
      · subst hkey
        exact findVal_bump_one_pos _ _
  | upstreamError route =>
    exact ⟨fun k hk => h1 k hk, fun k hk => h2 k hk⟩
  | rateLimited =>
    exact ⟨fun k hk => h1 k hk, fun k hk => h2 k hk⟩

theorem applyOps_aligned (l : List MetricsOp) :
    ∀ (m : MetricsRegistry), sumCountAligned m → sumCountAligned (applyOps m l) := by
  induction l with
  | nil => intro m h; exact h
  | cons op rest ih =>
    intro m h
    exact ih (applyOp m op) (applyOp_aligned m op h)

theorem applyOps_counterLe (l : List MetricsOp) :
    ∀ (m : MetricsRegistry), (∀ op ∈ l, op.nonneg) → counterLe m (applyOps m l) := by
  induction l with
  | nil => intro m _; exact counterLe_refl m
  | cons op rest ih =>
    intro m h
    exact counterLe_trans
      (applyOp_counterLe m op (h op (List.mem_cons_self op rest)))
      (ih (applyOp m op) (fun o ho => h o (List.mem_cons_of_mem op ho)))

/-- C9: after any sequence of record operations with non-negative latencies,
starting from the empty registry, every key of a `*_sum` mapping is present
in the matching `*_count` mapping with a non-zero count, and every counter
is monotonically non-decreasing across operations (any prefix of the
sequence is pointwise below the whole sequence). -/
theorem metrics_registry_invariants (ops xs ys : List MetricsOp)
    (hsplit : ops = xs ++ ys) (hnn : ∀ op ∈ ops, op.nonneg) :
    sumCountAligned (applyOps initialRegistry ops)
  ∧ counterLe (applyOps initialRegistry xs) (applyOps initialRegistry ops) := by
  constructor
  · apply applyOps_aligned
    constructor
    · intro k hk
      simp [initialRegistry] at hk
    · intro k hk
      simp [initialRegistry] at hk
  · subst hsplit
    show counterLe _ (applyOps initialRegistry (xs ++ ys))
    simp only [applyOps, List.foldl_append]
    apply applyOps_counterLe
    intro op hop
    exact hnn op (List.mem_append_right xs hop)

/-- Witness for `metrics_registry_invariants`: one recorded request followed
by one rate-limit rejection. -/
theorem metrics_registry_invariants_witness :
    sumCountAligned (applyOps initialRegistry
      [.request "/v1/models" "GET" 200 1, .rateLimited])
  ∧ counterLe (applyOps initialRegistry [.request "/v1/models" "GET" 200 1])
      (applyOps initialRegistry
        [.request "/v1/models" "GET" 200 1, .rateLimited]) := by
  apply metrics_registry_invariants _ [MetricsOp.request "/v1/models" "GET" 200 1]
    [MetricsOp.rateLimited] rfl
  intro op hop
  simp only [List.cons_append, List.nil_append] at hop
  rcases List.mem_cons.mp hop with h | h
  · subst h
    show (0 : ℚ) ≤ 1
    norm_num
  · rw [List.mem_singleton] at h
    subst h
    trivial

/-! ## Request middleware (`request_middleware` in `app/main.py`) -/

/-- Set a response header, overwriting any existing value for the key
(Starlette `response.headers[k] = v`). -/
def setHeader (hs : List (String × String)) (k v : String) : List (String × String) :=
  match hs with
  | [] => [(k, v)]
  | (k', v') :: rest => if k' = k then (k, v) :: rest else (k', v') :: setHeader rest k v

/-- The 32-hex-character token `uuid.uuid4().hex`: the lowercase hexadecimal
digits of the 128-bit random value `n`, left-padded with zeros to width 32.
The randomness is a parameter of the model. -/
def uuidHex (n : Nat) : String :=
  String.mk ((List.range 32).map (fun i => Nat.digitChar (n / 16 ^ (31 - i) % 16)))

/-- `_request_id` (`app/main.py`): the trimmed inbound `x-request-id` header
when it is present and non-empty after trimming, otherwise a fresh
`uuid4().hex` token. -/
def requestIdOf (inbound : Option String) (fresh : Nat) : String :=
  match inbound with
  | some s => if pyStrip s = "" then uuidHex fresh else pyStrip s
  | none => uuidHex fresh

/-- The serialized JSON error body used by the middleware for raised
`HTTPException`s and unexpected failures. -/
def errorBody (msg : String) : String :=
  "\x7b\"error\":\x7b\"message\":\"" ++ msg ++ "\"\x7d\x7d"

/-- The serialized 429 body of the rate-limit rejection. -/
def rateLimitBody : String :=
  "\x7b\"error\":\x7b\"message\":\"Rate limit exceeded\",\"type\":\"rate_limit_error\"\x7d\x7d"

/-- An inbound HTTP request as seen by the middleware. -/
structure HttpRequest where
  path : String
  method : String
  xRequestId : Option String
  authorization : Option String
  clientIp : String
deriving DecidableEq, Repr

/-- An HTTP response: status, headers and serialized body. -/
structure HttpResponse where
  status : Nat
  headers : List (String × String)
  body : String
deriving DecidableEq, Repr

/-- What `call_next` produces for the middleware: a downstream response, an
`HTTPException` propagated out of dispatch, or any other exception. -/
inductive CallNextResult where
  | success (resp : HttpResponse)
  | httpError (e : HTTPException)
  | failure
deriving DecidableEq, Repr

/-- `SlidingWindowRateLimiter.check` over the whole bucket table
(`defaultdict(deque)`): fetch the client's bucket (empty when absent), run
the single-bucket check, write the mutated bucket back. -/
def limiterCheck (rpm : ℤ) (buckets : List (String × List ℚ)) (clientId : String)
    (now : ℚ) : RateLimitDecision × List (String × List ℚ) :=
  let bucket := (findVal buckets clientId).getD []
  let r := checkBucket rpm bucket now
  (r.1, setVal buckets clientId r.2)

/-- The header finalization at the end of `request_middleware`: set
`x-request-id` always, and on `/v1/` non-OPTIONS requests also
`x-ratelimit-limit` and `x-ratelimit-remaining` (clamped at zero). -/
def finalizeHeaders (isApi : Bool) (rpm remaining : ℤ) (requestId : String)
    (hs : List (String × String)) : List (String × String) :=
  let h1 := setHeader hs "x-request-id" requestId
  if isApi then
    setHeader (setHeader h1 "x-ratelimit-limit" (toString rpm))
      "x-ratelimit-remaining" (toString (max 0 remaining))
  else h1

/-- Resolve the `call_next` outcome as the middleware's `try`/`except` does:
a raised `HTTPException` becomes a JSON error response with its status; any
other exception becomes a 500 response and records an upstream error under
the route key. -/
def dispatchNext (next : CallNextResult) (route : String) :
    HttpResponse × List MetricsOp :=
  match next with
  | .success resp => (resp, [])
  | .httpError e => (⟨e.status, [], errorBody e.detail⟩, [])
  | .failure => (⟨500, [], errorBody "Internal server error"⟩, [.upstreamError route])

/-- The outcome of one middleware pass: the response handed to the client,
the rate limiter's bucket table afterwards, and the metric recordings in
order. -/
structure MiddlewareResult where
  response : HttpResponse
  buckets : List (String × List ℚ)
  events : List MetricsOp
deriving DecidableEq, Repr

/-- `request_middleware` (`app/main.py`).  `rpm` is
`settings.rate_limit_rpm`, `keys` the auth key table, `buckets` the limiter
state, `now` the monotonic clock at the rate-limit check, `elapsed` the
measured request latency, `fresh` the 128-bit randomness for a generated
request id, and `next` the downstream dispatch outcome.  A `/v1/` non-OPTIONS
request is authenticated (401 goes through the error path but is still
finalized), then rate limited (a refusal short-circuits with 429, its
`retry-after`, limit and zero-remaining headers, and records the rejection);
every other exit passes through header finalization and records the
request. -/
def requestMiddleware (rpm : ℤ) (keys : List (String × String))
    (buckets : List (String × List ℚ)) (now elapsed : ℚ)
    (req : HttpRequest) (fresh : Nat) (next : CallNextResult) : MiddlewareResult :=
  let route := req.path
  let method := req.method
  let requestId := requestIdOf req.xRequestId fresh
  let isApi : Bool := strStartsWith route "/v1/" && method != "OPTIONS"
  if isApi then
    match authenticate keys req.authorization with
    | .error e =>
        let rp := ((⟨e.status, [], errorBody e.detail⟩ : HttpResponse),
          ([] : List MetricsOp))
        ⟨{ rp.1 with headers := finalizeHeaders isApi rpm rpm requestId rp.1.headers },
         buckets,
         rp.2 ++ [.request route method rp.1.status elapsed]⟩
    | .ok identity =>
        let clientId := if keys.isEmpty then req.clientIp else identity.client_id
        let rc := limiterCheck rpm buckets clientId now
        if rc.1.allowed then
          let rp := dispatchNext next route
          ⟨{ rp.1 with headers := finalizeHeaders isApi rpm rc.1.remaining requestId rp.1.headers },
           rc.2,
           rp.2 ++ [.request route method rp.1.status elapsed]⟩
        else
          ⟨⟨429,
            setHeader
              [("retry-after", toString rc.1.retry_after_s),
               ("x-ratelimit-limit", toString rpm),
               ("x-ratelimit-remaining", "0")]
              "x-request-id" requestId,
            rateLimitBody⟩,
           rc.2,
           [.rateLimited, .request route method 429 elapsed]⟩
  else
    let rp := dispatchNext next route
    ⟨{ rp.1 with headers := finalizeHeaders isApi rpm rpm requestId rp.1.headers },
     buckets,
     rp.2 ++ [.request route method rp.1.status elapsed]⟩

theorem findVal_setHeader_self (hs : List (String × String)) (k v : String) :
    findVal (setHeader hs k v) k = some v := by
  induction hs with
  | nil => simp [setHeader, findVal]
  | cons p rest ih =>
    obtain ⟨k', v'⟩ := p
    by_cases h : k' = k
    · simp [setHeader, if_pos h, findVal]
    · simp only [setHeader, if_neg h, findVal]
      exact ih

theorem findVal_setHeader_ne (hs : List (String × String)) (k v a : String)
    (h : a ≠ k) : findVal (setHeader hs k v) a = findVal hs a := by
  induction hs with
  | nil =>
    simp only [setHeader, findVal]
    rw [if_neg (fun hk => h hk.symm)]
  | cons p rest ih =>
    obtain ⟨k', v'⟩ := p
    by_cases hk : k' = k
    · subst hk
      simp only [setHeader, if_pos rfl, findVal]
      rw [if_neg (fun hk => h hk.symm), if_neg (fun hk => h hk.symm)]
    · simp only [setHeader, if_neg hk, findVal]
      by_cases ha : k' = a
      · rw [if_pos ha, if_pos ha]
      · rw [if_neg ha, if_neg ha]
        exact ih

theorem findVal_finalizeHeaders_requestId (isApi : Bool) (rpm remaining : ℤ)
    (requestId : String) (hs : List (String × String)) :
    findVal (finalizeHeaders isApi rpm remaining requestId hs) "x-request-id" =
      some requestId := by
  cases isApi with
  | false =>
    simp only [finalizeHeaders, Bool.false_eq_true, if_false]
    exact findVal_setHeader_self hs "x-request-id" requestId
  | true =>
    simp only [finalizeHeaders, if_true]
    rw [findVal_setHeader_ne _ _ _ _ (by decide),
      findVal_setHeader_ne _ _ _ _ (by decide)]
    exact findVal_setHeader_self hs "x-request-id" requestId

/-- The sixteen lowercase hexadecimal digit characters. -/
def hexDigits : List Char := "0123456789abcdef".data

theorem digitChar_mem_hexDigits (k : Nat) (h : k < 16) :
    Nat.digitChar k ∈ hexDigits := by
  interval_cases k <;> decide

/-- C7 (amended): every response produced by the middleware carries an
`x-request-id` header whose value is the whitespace-trimmed inbound
`x-request-id` header when that header is present and non-empty after
trimming, and otherwise a freshly generated 32-hexadecimal-character
token. -/
theorem response_request_id_header (rpm : ℤ) (keys : List (String × String))
    (buckets : List (String × List ℚ)) (now elapsed : ℚ)
    (req : HttpRequest) (fresh : Nat) (next : CallNextResult) :
    findVal (requestMiddleware rpm keys buckets now elapsed req fresh next).response.headers
        "x-request-id" = some (requestIdOf req.xRequestId fresh)
  ∧ (∀ s, req.xRequestId = some s → pyStrip s ≠ "" →
      requestIdOf req.xRequestId fresh = pyStrip s)
  ∧ ((req.xRequestId = none ∨ ∃ s, req.xRequestId = some s ∧ pyStrip s = "") →
      requestIdOf req.xRequestId fresh = uuidHex fresh)
  ∧ (uuidHex fresh).length = 32
  ∧ (∀ c ∈ (uuidHex fresh).data, c ∈ hexDigits) := by
  refine ⟨?_, ?_, ?_, ?_, ?_⟩
  · simp only [requestMiddleware]
    split
    · split
      · exact findVal_finalizeHeaders_requestId _ _ _ _ _
      · split
        · split
          · exact findVal_finalizeHeaders_requestId _ _ _ _ _
          · exact findVal_setHeader_self _ _ _
        · split
          · exact findVal_finalizeHeaders_requestId _ _ _ _ _
          · exact findVal_setHeader_self _ _ _
    · exact findVal_finalizeHeaders_requestId _ _ _ _ _
  · intro s hs hne
    simp only [requestIdOf, hs]
    rw [if_neg hne]
  · intro hcase
    rcases hcase with h | ⟨s, hs, hstrip⟩
    · simp only [requestIdOf, h]
    · simp only [requestIdOf, hs]
      rw [if_pos hstrip]
  · show (String.mk _).length = 32
    simp [String.length]
  · intro c hc
    have hdata : (uuidHex fresh).data =
        (List.range 32).map (fun i => Nat.digitChar (fresh / 16 ^ (31 - i) % 16)) := rfl
    rw [hdata] at hc
    rw [List.mem_map] at hc
    obtain ⟨i, _, hci⟩ := hc
    rw [← hci]
    exact digitChar_mem_hexDigits _ (Nat.mod_lt _ (by norm_num))

/-- Witness for `response_request_id_header`: an inbound id `abc` is echoed
back, and the generated token has 32 characters. -/
theorem response_request_id_header_witness :
    findVal (requestMiddleware 120 [] [] 0 0
        ⟨"/health", "GET", some "abc", none, "ip"⟩ 7
        (.success ⟨200, [], ""⟩)).response.headers "x-request-id" = some "abc"
  ∧ (uuidHex 7).length = 32 := by
  have h := response_request_id_header 120 [] [] 0 0
    ⟨"/health", "GET", some "abc", none, "ip"⟩ 7 (.success ⟨200, [], ""⟩)
  constructor
  · rw [h.1, h.2.1 "abc" rfl (by decide)]
    decide
  · exact h.2.2.2.1

/-- C7 counterexample: the inbound header `" abc "` is present and non-empty
after trimming, yet the response's `x-request-id` is the trimmed `"abc"`,
not the inbound header value itself (the code returns `existing.strip()`). -/
theorem response_request_id_counterexample :
    pyStrip " abc " ≠ ""
  ∧ findVal (requestMiddleware 120 [] [] 0 0
        ⟨"/health", "GET", some " abc ", none, "ip"⟩ 7
        (.success ⟨200, [], ""⟩)).response.headers "x-request-id" = some "abc"
  ∧ ("abc" : String) ≠ " abc " := by
  refine ⟨by decide, by decide, by decide⟩

theorem authenticate_error_status (keys : List (String × String))
    (auth : Option String) (e : HTTPException)
    (h : authenticate keys auth = .error e) : e.status = 401 := by
  by_cases hk : keys = []
  · rw [hk] at h
    simp [authenticate] at h
  · cases auth with
    | none =>
      simp only [authenticate, if_neg hk] at h
      cases h
      rfl
    | some s =>
      simp only [authenticate, if_neg hk] at h
      by_cases hp : ¬ strStartsWith s "Bearer " = true
      · rw [if_pos hp] at h
        cases h
        rfl
      · rw [if_neg hp] at h
        cases hf : findVal keys (pyStrip (strDrop s 7)) with
        | none =>
          simp only [hf] at h
          cases h
          rfl
        | some cid =>
          simp only [hf] at h
          by_cases hc : cid = ""
          · rw [if_pos hc] at h
            cases h
            rfl
          · rw [if_neg hc] at h
            exact absurd h (by simp)

/-- C10: a `/v1/` non-OPTIONS request rejected by authentication still goes
through header finalization: the response has status 401 and carries
`x-ratelimit-limit` and `x-ratelimit-remaining` both equal to the configured
(non-negative) `rate_limit_rpm`, and the rate limiter state is untouched —
the limiter was never consulted for that request. -/
theorem auth_reject_keeps_ratelimit_headers (rpm : ℤ) (keys : List (String × String))
    (buckets : List (String × List ℚ)) (now elapsed : ℚ)
    (req : HttpRequest) (fresh : Nat) (next : CallNextResult) (e : HTTPException)
    (hpath : strStartsWith req.path "/v1/" = true)
    (hmethod : req.method ≠ "OPTIONS")
    (hauth : authenticate keys req.authorization = .error e)
    (hrpm : 0 ≤ rpm) :
    (requestMiddleware rpm keys buckets now elapsed req fresh next).response.status = 401
  ∧ findVal (requestMiddleware rpm keys buckets now elapsed req fresh next).response.headers
      "x-ratelimit-limit" = some (toString rpm)
  ∧ findVal (requestMiddleware rpm keys buckets now elapsed req fresh next).response.headers
      "x-ratelimit-remaining" = some (toString rpm)
  ∧ (requestMiddleware rpm keys buckets now elapsed req fresh next).buckets = buckets := by
  have hApi : (strStartsWith req.path "/v1/" && req.method != "OPTIONS") = true := by
    rw [hpath, Bool.true_and]
    exact bne_iff_ne.mpr hmethod
  have hmw : requestMiddleware rpm keys buckets now elapsed req fresh next =
      ⟨{ status := e.status,
         headers := finalizeHeaders true rpm rpm (requestIdOf req.xRequestId fresh) [],
         body := errorBody e.detail },
       buckets,
       [.request req.path req.method e.status elapsed]⟩ := by
    simp only [requestMiddleware, hApi, hauth]
    rfl
  have hid : findVal (finalizeHeaders true rpm rpm (requestIdOf req.xRequestId fresh) [])
      "x-ratelimit-limit" = some (toString rpm) := by
    simp only [finalizeHeaders, if_true]
    rw [findVal_setHeader_ne _ _ _ _ (by decide)]
    exact findVal_setHeader_self _ _ _
  have hrem : findVal (finalizeHeaders true rpm rpm (requestIdOf req.xRequestId fresh) [])
      "x-ratelimit-remaining" = some (toString (max 0 rpm)) := by
    simp only [finalizeHeaders, if_true]
    exact findVal_setHeader_self _ _ _
  rw [hmw]
  refine ⟨authenticate_error_status keys req.authorization e hauth, hid, ?_, rfl⟩
  rw [hrem, max_eq_right hrpm]

/-- Witness for `auth_reject_keeps_ratelimit_headers`: a request to
`/v1/models` without an Authorization header, one key configured, limit
120. -/
theorem auth_reject_keeps_ratelimit_headers_witness :
    (requestMiddleware 120 [("test-key", "test-client")] [("c", [0])] 0 0
        ⟨"/v1/models", "GET", none, none, "ip"⟩ 7
        (.success ⟨200, [], ""⟩)).response.status = 401
  ∧ findVal (requestMiddleware 120 [("test-key", "test-client")] [("c", [0])] 0 0
        ⟨"/v1/models", "GET", none, none, "ip"⟩ 7
        (.success ⟨200, [], ""⟩)).response.headers "x-ratelimit-limit" =
      some (toString (120 : ℤ))
  ∧ findVal (requestMiddleware 120 [("test-key", "test-client")] [("c", [0])] 0 0
        ⟨"/v1/models", "GET", none, none, "ip"⟩ 7
        (.success ⟨200, [], ""⟩)).response.headers "x-ratelimit-remaining" =
      some (toString (120 : ℤ))
  ∧ (requestMiddleware 120 [("test-key", "test-client")] [("c", [0])] 0 0
        ⟨"/v1/models", "GET", none, none, "ip"⟩ 7
        (.success ⟨200, [], ""⟩)).buckets = [("c", [0])] :=
  auth_reject_keeps_ratelimit_headers 120 [("test-key", "test-client")] [("c", [0])]
    0 0 ⟨"/v1/models", "GET", none, none, "ip"⟩ 7 (.success ⟨200, [], ""⟩)
    ⟨401, "Missing or invalid Authorization header"⟩
    (by decide) (by decide) rfl (by norm_num)

end LlamaProxy
